import Mathlib

/-!
# Verification of the ArbitrageEdge arbitrage engine (`src/api.js`)

Shallow embedding of the arbitrage-detection engine: `calculate2WayArbitrage`,
`calculate3WayArbitrage`, `calculateStakeAmounts` and `findArbitrageOpportunities`.

Modelling conventions:
* JavaScript numbers are modelled as exact rationals `ℚ`; the quantities involved
  are decimal odds and percentages, and all claims are about the exact arithmetic
  the code expresses.
* `parseFloat(x.toFixed(2))` is modelled as rounding to two decimal places
  (`round2`); every value the engine rounds is nonnegative, where JavaScript's
  round-half-away-from-zero agrees with `round` (half-up).
* In JavaScript an unpopulated best-price slot has odds `0`, and `1 / 0` is
  `Infinity`, so `totalImpliedProb >= 1.0` holds and the 2-way calculator
  returns `null`.  `ℚ` has no infinity, so that behaviour is made explicit by a
  zero test on the best odds before the division (the 3-way calculator has the
  same zero test literally in the source).
* The single accumulator loop of the source updates the per-slot best quotes
  independently, so it is modelled as one fold per slot.
* The opportunity fields `id` (timestamp + randomness) and `detected_at`
  (wall-clock) are impure and omitted from the model; no claim mentions them.
* `guaranteed_profit` is produced by `toFixed(2)` as a decimal string; it is
  modelled by the rational value of that string.
* `Array.prototype.sort` with comparator `(a, b) => b.profit_percentage -
  a.profit_percentage` is a stable descending sort (ES2019); it is modelled by
  stable insertion sort.
-/

/-- `parseFloat(x.toFixed(2))`: round to two decimal places. -/
def round2 (q : ℚ) : ℚ := ((round (100 * q) : ℤ) : ℚ) / 100

/-- One bookmaker's quote for one match (the records built by
`scrapeOddsForSport`): `team1`, `team2`, `bookmaker`, `odds1`, `odds2`,
`draw_odds` (a nullable number). -/
structure OddsQuote where
  team1 : String
  team2 : String
  bookmaker : String
  odds1 : ℚ
  odds2 : ℚ
  draw_odds : Option ℚ
deriving Repr, DecidableEq

/-- The best-price accumulator `{ odds: 0, bookmaker: null }` of the scan loops. -/
structure BestQuote where
  odds : ℚ
  bookmaker : Option String
deriving Repr, DecidableEq

/-- One step of the best-price loop for one outcome slot: the slot valuation
`g` returns the price the quote offers for the slot, or `none` when the quote
does not offer one (this encodes the JavaScript truthiness test on
`draw_odds`). -/
def stepSlot (g : OddsQuote → Option ℚ) (b : BestQuote) (q : OddsQuote) : BestQuote :=
  match g q with
  | none => b
  | some d => if b.odds < d then { odds := d, bookmaker := some q.bookmaker } else b

/-- Slot valuation for outcome 1: `odd.odds1`. -/
def odds1Slot (q : OddsQuote) : Option ℚ := some q.odds1

/-- Slot valuation for outcome 2: `odd.odds2`. -/
def odds2Slot (q : OddsQuote) : Option ℚ := some q.odds2

/-- Slot valuation for the draw: the guard `odd.draw_odds &&` skips quotes
whose `draw_odds` is `null` or `0` (falsy). -/
def drawSlot (q : OddsQuote) : Option ℚ :=
  match q.draw_odds with
  | none => none
  | some d => if d = 0 then none else some d

/-- The `bestOdds1` accumulator after the scan loop. -/
def bestOdds1 (odds : List OddsQuote) : BestQuote :=
  odds.foldl (stepSlot odds1Slot) { odds := 0, bookmaker := none }

/-- The `bestOdds2` accumulator after the scan loop. -/
def bestOdds2 (odds : List OddsQuote) : BestQuote :=
  odds.foldl (stepSlot odds2Slot) { odds := 0, bookmaker := none }

/-- The `bestDraw` accumulator after the scan loop. -/
def bestDraw (odds : List OddsQuote) : BestQuote :=
  odds.foldl (stepSlot drawSlot) { odds := 0, bookmaker := none }

/-- `impliedProb1 = 1 / bestOdds1.odds`. -/
def impliedProb1 (odds : List OddsQuote) : ℚ := 1 / (bestOdds1 odds).odds

/-- `impliedProb2 = 1 / bestOdds2.odds`. -/
def impliedProb2 (odds : List OddsQuote) : ℚ := 1 / (bestOdds2 odds).odds

/-- `impliedProbDraw = 1 / bestDraw.odds`. -/
def impliedProbDraw (odds : List OddsQuote) : ℚ := 1 / (bestDraw odds).odds

/-- `totalImpliedProb` of the 2-way calculator. -/
def totalImpliedProb2 (odds : List OddsQuote) : ℚ :=
  impliedProb1 odds + impliedProb2 odds

/-- `totalImpliedProb` of the 3-way calculator. -/
def totalImpliedProb3 (odds : List OddsQuote) : ℚ :=
  impliedProb1 odds + impliedProb2 odds + impliedProbDraw odds

/-- One leg of an arbitrage result. -/
structure BetLeg where
  outcome : String
  bookmaker : Option String
  odds : ℚ
  stake_pct : ℚ
deriving Repr, DecidableEq

/-- The record returned by the calculators; the JavaScript field `exists` is a
Lean keyword and is named `exists_flag` here. -/
structure ArbitrageResult where
  exists_flag : Bool
  profit_percentage : ℚ
  bets : List BetLeg
deriving Repr, DecidableEq

/-- `calculate2WayArbitrage`.  The first test encodes the JavaScript behaviour
for an unpopulated slot: with best odds `0`, `1 / 0 = Infinity`, so
`totalImpliedProb >= 1.0` holds and the function returns `null` (and never
reaches the `odds[0]` access, which is why the `[]` case is unreachable). -/
def calculate2WayArbitrage (odds : List OddsQuote) : Option ArbitrageResult :=
  if (bestOdds1 odds).odds = 0 ∨ (bestOdds2 odds).odds = 0 then none
  else if 1 ≤ totalImpliedProb2 odds then none
  else
    match odds with
    | [] => none
    | q0 :: _ =>
      some {
        exists_flag := true
        profit_percentage := round2 ((1 / totalImpliedProb2 odds - 1) * 100)
        bets := [
          { outcome := q0.team1, bookmaker := (bestOdds1 odds).bookmaker,
            odds := (bestOdds1 odds).odds,
            stake_pct := round2 (impliedProb1 odds / totalImpliedProb2 odds * 100) },
          { outcome := q0.team2, bookmaker := (bestOdds2 odds).bookmaker,
            odds := (bestOdds2 odds).odds,
            stake_pct := round2 (impliedProb2 odds / totalImpliedProb2 odds * 100) }] }

/-- `calculate3WayArbitrage`; the zero tests on the three best slots appear
literally in the source (`bestOdds1.odds === 0 || ...`). -/
def calculate3WayArbitrage (odds : List OddsQuote) : Option ArbitrageResult :=
  if (bestOdds1 odds).odds = 0 ∨ (bestOdds2 odds).odds = 0 ∨ (bestDraw odds).odds = 0 then
    none
  else if 1 ≤ totalImpliedProb3 odds then none
  else
    match odds with
    | [] => none
    | q0 :: _ =>
      some {
        exists_flag := true
        profit_percentage := round2 ((1 / totalImpliedProb3 odds - 1) * 100)
        bets := [
          { outcome := q0.team1, bookmaker := (bestOdds1 odds).bookmaker,
            odds := (bestOdds1 odds).odds,
            stake_pct := round2 (impliedProb1 odds / totalImpliedProb3 odds * 100) },
          { outcome := "Draw", bookmaker := (bestDraw odds).bookmaker,
            odds := (bestDraw odds).odds,
            stake_pct := round2 (impliedProbDraw odds / totalImpliedProb3 odds * 100) },
          { outcome := q0.team2, bookmaker := (bestOdds2 odds).bookmaker,
            odds := (bestOdds2 odds).odds,
            stake_pct := round2 (impliedProb2 odds / totalImpliedProb3 odds * 100) }] }

/-- A leg enriched with the stake amounts (`...bet` spread plus the two
computed fields). -/
structure BetWithStake where
  outcome : String
  bookmaker : Option String
  odds : ℚ
  stake_pct : ℚ
  stake_amount : ℚ
  potential_return : ℚ
deriving Repr, DecidableEq

/-- `calculateStakeAmounts`: note that `potential_return` is computed from the
unrounded `totalStake * bet.stake_pct / 100`, not from the rounded
`stake_amount`. -/
def calculateStakeAmounts (arbitrage : ArbitrageResult) (totalStake : ℚ) : List BetWithStake :=
  arbitrage.bets.map fun bet =>
    { outcome := bet.outcome, bookmaker := bet.bookmaker, odds := bet.odds,
      stake_pct := bet.stake_pct,
      stake_amount := round2 (totalStake * bet.stake_pct / 100),
      potential_return := round2 (totalStake * bet.stake_pct / 100 * bet.odds) }

/-- A match record as consumed by `findArbitrageOpportunities`. -/
structure Match where
  match_name : String
  sport : String
  league : String
  start_time : String
  odds : List OddsQuote
  has_draw : Bool
deriving Repr, DecidableEq

/-- An opportunity record (without the impure `id` and `detected_at`). -/
structure Opportunity where
  match_name : String
  sport : String
  league : String
  start_time : String
  profit_percentage : ℚ
  total_stake : ℚ
  guaranteed_profit : ℚ
  bets : List BetWithStake
deriving Repr, DecidableEq

/-- `match.has_draw ? calculate3WayArbitrage(match.odds) :
calculate2WayArbitrage(match.odds)`. -/
def matchArbitrage (m : Match) : Option ArbitrageResult :=
  if m.has_draw then calculate3WayArbitrage m.odds else calculate2WayArbitrage m.odds

/-- The opportunity record pushed by the loop of `findArbitrageOpportunities`
(without the impure `id` and `detected_at`). -/
def buildOpportunity (m : Match) (arb : ArbitrageResult) (stake : ℚ) : Opportunity :=
  { match_name := m.match_name, sport := m.sport, league := m.league,
    start_time := m.start_time,
    profit_percentage := arb.profit_percentage,
    total_stake := stake,
    guaranteed_profit := round2 (stake * arb.profit_percentage / 100),
    bets := calculateStakeAmounts arb stake }

/-- The loop body of `findArbitrageOpportunities` for one match: evaluate the
arbitrage (3-way when `has_draw`, else 2-way) and keep it when
`arbitrage && arbitrage.exists && arbitrage.profit_percentage >= minProfit`. -/
def evalMatch (stake minProfit : ℚ) (m : Match) : Option Opportunity :=
  match matchArbitrage m with
  | none => none
  | some arb =>
    if arb.exists_flag ∧ minProfit ≤ arb.profit_percentage then
      some (buildOpportunity m arb stake)
    else none

/-- Descending order on profit: `a` may come before `b`. -/
def profitGe (a b : Opportunity) : Prop := b.profit_percentage ≤ a.profit_percentage

instance : DecidableRel profitGe := fun a b =>
  inferInstanceAs (Decidable (b.profit_percentage ≤ a.profit_percentage))

instance : IsTotal Opportunity profitGe :=
  ⟨fun a b => le_total b.profit_percentage a.profit_percentage⟩

instance : IsTrans Opportunity profitGe :=
  ⟨fun _ _ _ h1 h2 => le_trans h2 h1⟩

/-- `findArbitrageOpportunities`: collect the qualifying opportunities in match
order, then sort by `profit_percentage` descending (stable). -/
def findArbitrageOpportunities (matchList : List Match) (minProfit stake : ℚ) :
    List Opportunity :=
  (matchList.filterMap (evalMatch stake minProfit)).insertionSort profitGe

/-! ## Specification-side best-price selection

`slotMax` is the highest price offered for a slot across all quotes and
`slotFirstBookmaker` the bookmaker of the first quote in list order attaining
it; the scan lemmas below prove that the accumulator loop computes exactly
these. -/

/-- The maximum price offered for a slot across all quotes (0 when none). -/
def slotMax (g : OddsQuote → Option ℚ) (odds : List OddsQuote) : ℚ :=
  (odds.filterMap g).foldl max 0

/-- The bookmaker of the first quote in list order offering the maximum price
for the slot. -/
def slotFirstBookmaker (g : OddsQuote → Option ℚ) (odds : List OddsQuote) : Option String :=
  (odds.find? fun q => decide (g q = some (slotMax g odds))).map OddsQuote.bookmaker

theorem stepSlot_odds_le (g : OddsQuote → Option ℚ) (b : BestQuote) (q : OddsQuote) :
    b.odds ≤ (stepSlot g b q).odds := by
  rcases hg : g q with _ | d
  · simp only [stepSlot, hg]
    exact le_refl _
  · simp only [stepSlot, hg]
    split_ifs with h
    · exact le_of_lt h
    · exact le_refl _

theorem stepSlot_odds_eq (g : OddsQuote → Option ℚ) (b : BestQuote) (q : OddsQuote)
    (d : ℚ) (hg : g q = some d) : (stepSlot g b q).odds = max b.odds d := by
  simp only [stepSlot, hg]
  split_ifs with h
  · exact (max_eq_right h.le).symm
  · exact (max_eq_left (not_lt.mp h)).symm

theorem stepSlot_of_none (g : OddsQuote → Option ℚ) (b : BestQuote) (q : OddsQuote)
    (hg : g q = none) : stepSlot g b q = b := by
  simp only [stepSlot, hg]

theorem stepSlot_eq_of_odds_le (g : OddsQuote → Option ℚ) (b : BestQuote) (q : OddsQuote)
    (h : (stepSlot g b q).odds ≤ b.odds) : stepSlot g b q = b := by
  rcases hg : g q with _ | d
  · exact stepSlot_of_none g b q hg
  · simp only [stepSlot, hg] at h ⊢
    split_ifs with hlt
    · exfalso
      rw [if_pos hlt] at h
      exact absurd (lt_of_lt_of_le hlt h) (lt_irrefl _)
    · rfl

theorem scan_mono (g : OddsQuote → Option ℚ) :
    ∀ (l : List OddsQuote) (b : BestQuote), b.odds ≤ (l.foldl (stepSlot g) b).odds := by
  intro l
  induction l with
  | nil => intro b; exact le_refl _
  | cons q t ih =>
    intro b
    rw [List.foldl_cons]
    exact le_trans (stepSlot_odds_le g b q) (ih _)

theorem scan_stay (g : OddsQuote → Option ℚ) :
    ∀ (l : List OddsQuote) (b : BestQuote),
      (l.foldl (stepSlot g) b).odds ≤ b.odds → l.foldl (stepSlot g) b = b := by
  intro l
  induction l with
  | nil => intro b _; rfl
  | cons q t ih =>
    intro b h
    rw [List.foldl_cons] at h ⊢
    have h1 : (stepSlot g b q).odds ≤ b.odds := le_trans (scan_mono g t _) h
    have h2 : stepSlot g b q = b := stepSlot_eq_of_odds_le g b q h1
    rw [h2] at h ⊢
    exact ih b h

theorem scan_odds (g : OddsQuote → Option ℚ) :
    ∀ (l : List OddsQuote) (b : BestQuote),
      (l.foldl (stepSlot g) b).odds = (l.filterMap g).foldl max b.odds := by
  intro l
  induction l with
  | nil => intro b; rfl
  | cons q t ih =>
    intro b
    rw [List.foldl_cons]
    rcases hg : g q with _ | d
    · rw [List.filterMap_cons_none hg, stepSlot_of_none g b q hg]
      exact ih b
    · rw [List.filterMap_cons_some hg, List.foldl_cons, ih (stepSlot g b q),
        stepSlot_odds_eq g b q d hg]

theorem scan_book (g : OddsQuote → Option ℚ) :
    ∀ (l : List OddsQuote) (b : BestQuote) (M : ℚ),
      (l.foldl (stepSlot g) b).odds = M → b.odds < M →
      (l.foldl (stepSlot g) b).bookmaker =
        (l.find? fun q => decide (g q = some M)).map OddsQuote.bookmaker := by
  intro l
  induction l with
  | nil =>
    intro b M hM hb
    exact absurd (hM ▸ hb) (lt_irrefl _)
  | cons q t ih =>
    intro b M hM hb
    rw [List.foldl_cons] at hM ⊢
    rcases hg : g q with _ | d
    · have hb' : stepSlot g b q = b := stepSlot_of_none g b q hg
      rw [hb'] at hM ⊢
      rw [List.find?_cons_of_neg _ (by simp [hg])]
      exact ih b M hM hb
    · by_cases hlt : b.odds < d
      · have hb' : stepSlot g b q = { odds := d, bookmaker := some q.bookmaker } := by
          simp only [stepSlot, hg, if_pos hlt]
        by_cases hstay : (t.foldl (stepSlot g) (stepSlot g b q)).odds ≤ (stepSlot g b q).odds
        · have hfix : t.foldl (stepSlot g) (stepSlot g b q) = stepSlot g b q :=
            scan_stay g t _ hstay
          rw [hfix] at hM ⊢
          have hdM : d = M := by rw [hb'] at hM; exact hM
          rw [List.find?_cons_of_pos _ (by simp [hg, hdM]), hb']
          rfl
        · push_neg at hstay
          rw [hM] at hstay
          have hdM : d < M := by rw [hb'] at hstay; exact hstay
          rw [List.find?_cons_of_neg _ (by simp [hg]; exact fun h => absurd h (ne_of_lt hdM))]
          exact ih _ M hM (by rw [hb']; exact hdM)
      · have hb' : stepSlot g b q = b := by
          simp only [stepSlot, hg, if_neg hlt]
        rw [hb'] at hM ⊢
        have hdM : d ≠ M := ne_of_lt (lt_of_le_of_lt (not_lt.mp hlt) hb)
        rw [List.find?_cons_of_neg _ (by simp [hg]; exact fun h => absurd h hdM)]
        exact ih b M hM hb

theorem le_foldl_max : ∀ (l : List ℚ) (a : ℚ), a ≤ l.foldl max a := by
  intro l
  induction l with
  | nil => intro a; exact le_refl a
  | cons x t ih =>
    intro a
    rw [List.foldl_cons]
    exact le_trans (le_max_left a x) (ih (max a x))

theorem foldl_max_of_le : ∀ (l : List ℚ) (a : ℚ), (∀ x ∈ l, x ≤ a) → l.foldl max a = a := by
  intro l
  induction l with
  | nil => intro a _; rfl
  | cons x t ih =>
    intro a h
    rw [List.foldl_cons, max_eq_left (h x (List.mem_cons_self x t))]
    exact ih a fun y hy => h y (List.mem_cons_of_mem x hy)

theorem bestOdds1_odds_eq (odds : List OddsQuote) :
    (bestOdds1 odds).odds = slotMax odds1Slot odds :=
  scan_odds odds1Slot odds { odds := 0, bookmaker := none }

theorem bestOdds2_odds_eq (odds : List OddsQuote) :
    (bestOdds2 odds).odds = slotMax odds2Slot odds :=
  scan_odds odds2Slot odds { odds := 0, bookmaker := none }

theorem bestDraw_odds_eq (odds : List OddsQuote) :
    (bestDraw odds).odds = slotMax drawSlot odds :=
  scan_odds drawSlot odds { odds := 0, bookmaker := none }

theorem bestOdds1_nonneg (odds : List OddsQuote) : 0 ≤ (bestOdds1 odds).odds :=
  scan_mono odds1Slot odds { odds := 0, bookmaker := none }

theorem bestOdds2_nonneg (odds : List OddsQuote) : 0 ≤ (bestOdds2 odds).odds :=
  scan_mono odds2Slot odds { odds := 0, bookmaker := none }

theorem bestDraw_nonneg (odds : List OddsQuote) : 0 ≤ (bestDraw odds).odds :=
  scan_mono drawSlot odds { odds := 0, bookmaker := none }

theorem bestOdds1_pos (odds : List OddsQuote) (h : (bestOdds1 odds).odds ≠ 0) :
    0 < (bestOdds1 odds).odds :=
  lt_of_le_of_ne (bestOdds1_nonneg odds) (Ne.symm h)

theorem bestOdds2_pos (odds : List OddsQuote) (h : (bestOdds2 odds).odds ≠ 0) :
    0 < (bestOdds2 odds).odds :=
  lt_of_le_of_ne (bestOdds2_nonneg odds) (Ne.symm h)

theorem bestDraw_pos (odds : List OddsQuote) (h : (bestDraw odds).odds ≠ 0) :
    0 < (bestDraw odds).odds :=
  lt_of_le_of_ne (bestDraw_nonneg odds) (Ne.symm h)

theorem bestOdds1_bookmaker_eq (odds : List OddsQuote) (h : (bestOdds1 odds).odds ≠ 0) :
    (bestOdds1 odds).bookmaker = slotFirstBookmaker odds1Slot odds := by
  have hpos : (0 : ℚ) < slotMax odds1Slot odds := bestOdds1_odds_eq odds ▸ bestOdds1_pos odds h
  exact scan_book odds1Slot odds { odds := 0, bookmaker := none } (slotMax odds1Slot odds)
    (bestOdds1_odds_eq odds) hpos

theorem bestOdds2_bookmaker_eq (odds : List OddsQuote) (h : (bestOdds2 odds).odds ≠ 0) :
    (bestOdds2 odds).bookmaker = slotFirstBookmaker odds2Slot odds := by
  have hpos : (0 : ℚ) < slotMax odds2Slot odds := bestOdds2_odds_eq odds ▸ bestOdds2_pos odds h
  exact scan_book odds2Slot odds { odds := 0, bookmaker := none } (slotMax odds2Slot odds)
    (bestOdds2_odds_eq odds) hpos

theorem bestDraw_bookmaker_eq (odds : List OddsQuote) (h : (bestDraw odds).odds ≠ 0) :
    (bestDraw odds).bookmaker = slotFirstBookmaker drawSlot odds := by
  have hpos : (0 : ℚ) < slotMax drawSlot odds := bestDraw_odds_eq odds ▸ bestDraw_pos odds h
  exact scan_book drawSlot odds { odds := 0, bookmaker := none } (slotMax drawSlot odds)
    (bestDraw_odds_eq odds) hpos

/-! ## Inversion of the calculators -/

theorem calc2_inv {odds : List OddsQuote} {r : ArbitrageResult}
    (h : calculate2WayArbitrage odds = some r) :
    (bestOdds1 odds).odds ≠ 0 ∧ (bestOdds2 odds).odds ≠ 0 ∧
    totalImpliedProb2 odds < 1 ∧
    ∃ q0 t, odds = q0 :: t ∧
      r = { exists_flag := true
            profit_percentage := round2 ((1 / totalImpliedProb2 odds - 1) * 100)
            bets := [
              { outcome := q0.team1, bookmaker := (bestOdds1 odds).bookmaker,
                odds := (bestOdds1 odds).odds,
                stake_pct := round2 (impliedProb1 odds / totalImpliedProb2 odds * 100) },
              { outcome := q0.team2, bookmaker := (bestOdds2 odds).bookmaker,
                odds := (bestOdds2 odds).odds,
                stake_pct := round2 (impliedProb2 odds / totalImpliedProb2 odds * 100) }] } := by
  unfold calculate2WayArbitrage at h
  by_cases h1 : (bestOdds1 odds).odds = 0 ∨ (bestOdds2 odds).odds = 0
  · rw [if_pos h1] at h
    exact absurd h (by simp)
  · rw [if_neg h1] at h
    by_cases h2 : 1 ≤ totalImpliedProb2 odds
    · rw [if_pos h2] at h
      exact absurd h (by simp)
    · rw [if_neg h2] at h
      push_neg at h1
      cases odds with
      | nil => exact absurd h (by simp)
      | cons q0 t =>
        exact ⟨h1.1, h1.2, lt_of_not_le h2, q0, t, rfl, (Option.some.inj h).symm⟩

theorem calc3_inv {odds : List OddsQuote} {r : ArbitrageResult}
    (h : calculate3WayArbitrage odds = some r) :
    (bestOdds1 odds).odds ≠ 0 ∧ (bestOdds2 odds).odds ≠ 0 ∧ (bestDraw odds).odds ≠ 0 ∧
    totalImpliedProb3 odds < 1 ∧
    ∃ q0 t, odds = q0 :: t ∧
      r = { exists_flag := true
            profit_percentage := round2 ((1 / totalImpliedProb3 odds - 1) * 100)
            bets := [
              { outcome := q0.team1, bookmaker := (bestOdds1 odds).bookmaker,
                odds := (bestOdds1 odds).odds,
                stake_pct := round2 (impliedProb1 odds / totalImpliedProb3 odds * 100) },
              { outcome := "Draw", bookmaker := (bestDraw odds).bookmaker,
                odds := (bestDraw odds).odds,
                stake_pct := round2 (impliedProbDraw odds / totalImpliedProb3 odds * 100) },
              { outcome := q0.team2, bookmaker := (bestOdds2 odds).bookmaker,
                odds := (bestOdds2 odds).odds,
                stake_pct := round2 (impliedProb2 odds / totalImpliedProb3 odds * 100) }] } := by
  unfold calculate3WayArbitrage at h
  by_cases h1 : (bestOdds1 odds).odds = 0 ∨ (bestOdds2 odds).odds = 0 ∨ (bestDraw odds).odds = 0
  · rw [if_pos h1] at h
    exact absurd h (by simp)
  · rw [if_neg h1] at h
    by_cases h2 : 1 ≤ totalImpliedProb3 odds
    · rw [if_pos h2] at h
      exact absurd h (by simp)
    · rw [if_neg h2] at h
      push_neg at h1
      cases odds with
      | nil => exact absurd h (by simp)
      | cons q0 t =>
        exact ⟨h1.1, h1.2.1, h1.2.2, lt_of_not_le h2, q0, t, rfl, (Option.some.inj h).symm⟩

theorem calc2_isSome (odds : List OddsQuote)
    (h1 : (bestOdds1 odds).odds ≠ 0) (h2 : (bestOdds2 odds).odds ≠ 0)
    (hT : totalImpliedProb2 odds < 1) : (calculate2WayArbitrage odds).isSome = true := by
  cases odds with
  | nil => exact absurd rfl h1
  | cons q0 t =>
    unfold calculate2WayArbitrage
    rw [if_neg (by push_neg; exact ⟨h1, h2⟩), if_neg (not_le.mpr hT)]
    rfl

theorem calc3_isSome (odds : List OddsQuote)
    (h1 : (bestOdds1 odds).odds ≠ 0) (h2 : (bestOdds2 odds).odds ≠ 0)
    (h3 : (bestDraw odds).odds ≠ 0)
    (hT : totalImpliedProb3 odds < 1) : (calculate3WayArbitrage odds).isSome = true := by
  cases odds with
  | nil => exact absurd rfl h1
  | cons q0 t =>
    unfold calculate3WayArbitrage
    rw [if_neg (by push_neg; exact ⟨h1, h2, h3⟩), if_neg (not_le.mpr hT)]
    rfl

/-! ## Rounding bounds and result invariants -/

theorem round2_err (q : ℚ) : |round2 q - q| ≤ 1 / 200 := by
  have h : |((round (100 * q) : ℤ) : ℚ) - 100 * q| ≤ 1 / 2 := by
    rw [abs_sub_comm]
    exact abs_sub_round (100 * q)
  have hrw : round2 q - q = (((round (100 * q) : ℤ) : ℚ) - 100 * q) / 100 := by
    rw [round2]; ring
  rw [hrw, abs_div, abs_of_pos (show (0 : ℚ) < 100 by norm_num)]
  linarith

theorem round2_nonneg (q : ℚ) (h : 0 ≤ q) : 0 ≤ round2 q := by
  rw [round2]
  have : (0 : ℤ) ≤ round (100 * q) := by
    rw [round_eq]
    exact Int.floor_nonneg.mpr (by linarith)
  positivity

theorem round2_two_mul (x : ℚ) : |round2 (2 * x) - 2 * round2 x| ≤ 3 / 200 := by
  have h1 := round2_err (2 * x)
  have h2 := round2_err x
  have h3 : |2 * x - 2 * round2 x| = 2 * |round2 x - x| := by
    rw [abs_sub_comm, show 2 * round2 x - 2 * x = 2 * (round2 x - x) from by ring, abs_mul]
    norm_num
  have h4 := abs_sub_le (round2 (2 * x)) (2 * x) (2 * round2 x)
  linarith

theorem calc2_profit_nonneg {odds : List OddsQuote} {r : ArbitrageResult}
    (h : calculate2WayArbitrage odds = some r) : 0 ≤ r.profit_percentage := by
  obtain ⟨h1, h2, hT, q0, t, -, hr⟩ := calc2_inv h
  have hp1 : 0 < impliedProb1 odds :=
    one_div_pos.mpr (bestOdds1_pos odds h1)
  have hp2 : 0 < impliedProb2 odds :=
    one_div_pos.mpr (bestOdds2_pos odds h2)
  have hTpos : 0 < totalImpliedProb2 odds := by
    rw [totalImpliedProb2]; linarith
  have hgt : 1 < 1 / totalImpliedProb2 odds := by
    rw [lt_div_iff₀ hTpos]; linarith
  rw [hr]
  exact round2_nonneg _ (by nlinarith)

theorem calc3_profit_nonneg {odds : List OddsQuote} {r : ArbitrageResult}
    (h : calculate3WayArbitrage odds = some r) : 0 ≤ r.profit_percentage := by
  obtain ⟨h1, h2, h3, hT, q0, t, -, hr⟩ := calc3_inv h
  have hp1 : 0 < impliedProb1 odds :=
    one_div_pos.mpr (bestOdds1_pos odds h1)
  have hp2 : 0 < impliedProb2 odds :=
    one_div_pos.mpr (bestOdds2_pos odds h2)
  have hpd : 0 < impliedProbDraw odds :=
    one_div_pos.mpr (bestDraw_pos odds h3)
  have hTpos : 0 < totalImpliedProb3 odds := by
    rw [totalImpliedProb3]; linarith
  have hgt : 1 < 1 / totalImpliedProb3 odds := by
    rw [lt_div_iff₀ hTpos]; linarith
  rw [hr]
  exact round2_nonneg _ (by nlinarith)

theorem calc2_exists_flag {odds : List OddsQuote} {r : ArbitrageResult}
    (h : calculate2WayArbitrage odds = some r) : r.exists_flag = true := by
  obtain ⟨-, -, -, q0, t, -, hr⟩ := calc2_inv h
  rw [hr]

theorem calc3_exists_flag {odds : List OddsQuote} {r : ArbitrageResult}
    (h : calculate3WayArbitrage odds = some r) : r.exists_flag = true := by
  obtain ⟨-, -, -, -, q0, t, -, hr⟩ := calc3_inv h
  rw [hr]

/-! ## Claim C1: arbitrage exists iff the total implied probability is below 1 -/

/-- Concrete input for C1: one bookmaker quoting 2.10 / 1.95. -/
def quotesC1 : List OddsQuote :=
  [{ team1 := "A", team2 := "B", bookmaker := "X", odds1 := 21/10, odds2 := 39/20,
     draw_odds := none }]

/-- C1: when every required outcome slot has a positive best price,
`calculate2WayArbitrage` (resp. `calculate3WayArbitrage`) returns a non-null
result iff the sum of the reciprocals of the best per-slot odds is strictly
below 1; at exactly 1 or above the result is null. -/
theorem arbitrage_exists_iff_total_implied_lt_one (odds : List OddsQuote) :
    (0 < (bestOdds1 odds).odds → 0 < (bestOdds2 odds).odds →
      ((calculate2WayArbitrage odds).isSome = true ↔
        1 / (bestOdds1 odds).odds + 1 / (bestOdds2 odds).odds < 1)) ∧
    (0 < (bestOdds1 odds).odds → 0 < (bestOdds2 odds).odds → 0 < (bestDraw odds).odds →
      ((calculate3WayArbitrage odds).isSome = true ↔
        1 / (bestOdds1 odds).odds + 1 / (bestOdds2 odds).odds
          + 1 / (bestDraw odds).odds < 1)) := by
  constructor
  · intro h1 h2
    constructor
    · intro hs
      obtain ⟨r, hr⟩ := Option.isSome_iff_exists.mp hs
      exact (calc2_inv hr).2.2.1
    · intro hT
      exact calc2_isSome odds (ne_of_gt h1) (ne_of_gt h2) hT
  · intro h1 h2 h3
    constructor
    · intro hs
      obtain ⟨r, hr⟩ := Option.isSome_iff_exists.mp hs
      exact (calc3_inv hr).2.2.2.1
    · intro hT
      exact calc3_isSome odds (ne_of_gt h1) (ne_of_gt h2) (ne_of_gt h3) hT

/-- Witness for C1 at `quotesC1`. -/
theorem arbitrage_exists_iff_total_implied_lt_one_witness :
    (0 : ℚ) < (bestOdds1 quotesC1).odds ∧ (0 : ℚ) < (bestOdds2 quotesC1).odds ∧
    ((calculate2WayArbitrage quotesC1).isSome = true ↔
      1 / (bestOdds1 quotesC1).odds + 1 / (bestOdds2 quotesC1).odds < 1) := by
  have h1 : (0 : ℚ) < (bestOdds1 quotesC1).odds := by
    norm_num [bestOdds1, quotesC1, stepSlot, odds1Slot]
  have h2 : (0 : ℚ) < (bestOdds2 quotesC1).odds := by
    norm_num [bestOdds2, quotesC1, stepSlot, odds2Slot]
  exact ⟨h1, h2, (arbitrage_exists_iff_total_implied_lt_one quotesC1).1 h1 h2⟩

/-! ## Claim C6: no positive draw price means no 3-way opportunity -/

/-- Concrete input for C6: very favourable outcome odds, no draw price. -/
def quotesC6 : List OddsQuote :=
  [{ team1 := "A", team2 := "B", bookmaker := "X", odds1 := 100, odds2 := 100,
     draw_odds := none }]

/-- C6: when no quote carries a positive draw price, `calculate3WayArbitrage`
returns null regardless of the outcome-1 / outcome-2 odds. -/
theorem no_positive_draw_price_returns_none (odds : List OddsQuote)
    (h : ∀ q ∈ odds, q.draw_odds.getD 0 ≤ 0) :
    calculate3WayArbitrage odds = none := by
  have hzero : (bestDraw odds).odds = 0 := by
    rw [bestDraw_odds_eq, slotMax]
    apply foldl_max_of_le
    intro x hx
    rw [List.mem_filterMap] at hx
    obtain ⟨q, hq, hgq⟩ := hx
    rcases hdo : q.draw_odds with _ | d
    · simp only [drawSlot, hdo] at hgq
      exact absurd hgq (by simp)
    · simp only [drawSlot, hdo] at hgq
      by_cases hd0 : d = 0
      · rw [if_pos hd0] at hgq
        exact absurd hgq (by simp)
      · rw [if_neg hd0] at hgq
        have hxd : d = x := Option.some.inj hgq
        have := h q hq
        rw [hdo] at this
        simpa [← hxd] using this
  unfold calculate3WayArbitrage
  rw [if_pos (Or.inr (Or.inr hzero))]

/-- Witness for C6 at `quotesC6`. -/
theorem no_positive_draw_price_returns_none_witness :
    (∀ q ∈ quotesC6, q.draw_odds.getD 0 ≤ 0) ∧ calculate3WayArbitrage quotesC6 = none := by
  have h : ∀ q ∈ quotesC6, q.draw_odds.getD 0 ≤ 0 := by simp [quotesC6]
  exact ⟨h, no_positive_draw_price_returns_none quotesC6 h⟩

/-! ## Claim C7: an unpopulated 2-way slot yields null -/

/-- Concrete input for C7: outcome-1 odds never positive. -/
def quotesC7 : List OddsQuote :=
  [{ team1 := "A", team2 := "B", bookmaker := "X", odds1 := 0, odds2 := 5,
     draw_odds := none }]

/-- C7: `calculate2WayArbitrage` returns null whenever a best-price slot was
never populated: for the empty quote list, and when no quote offers positive
odds for one of the two outcomes (in JavaScript the unguarded `1 / 0` yields
`Infinity`, so the threshold test reports no arbitrage). -/
theorem unpopulated_slot_returns_none (odds : List OddsQuote)
    (h : odds = [] ∨ (∀ q ∈ odds, q.odds1 ≤ 0) ∨ (∀ q ∈ odds, q.odds2 ≤ 0)) :
    calculate2WayArbitrage odds = none := by
  rcases h with h | h | h
  · subst h
    have h0 : (bestOdds1 ([] : List OddsQuote)).odds = 0 := rfl
    unfold calculate2WayArbitrage
    rw [if_pos (Or.inl h0)]
  · have hzero : (bestOdds1 odds).odds = 0 := by
      rw [bestOdds1_odds_eq, slotMax]
      apply foldl_max_of_le
      intro x hx
      rw [List.mem_filterMap] at hx
      obtain ⟨q, hq, hgq⟩ := hx
      unfold odds1Slot at hgq
      exact (Option.some.inj hgq) ▸ h q hq
    unfold calculate2WayArbitrage
    rw [if_pos (Or.inl hzero)]
  · have hzero : (bestOdds2 odds).odds = 0 := by
      rw [bestOdds2_odds_eq, slotMax]
      apply foldl_max_of_le
      intro x hx
      rw [List.mem_filterMap] at hx
      obtain ⟨q, hq, hgq⟩ := hx
      unfold odds2Slot at hgq
      exact (Option.some.inj hgq) ▸ h q hq
    unfold calculate2WayArbitrage
    rw [if_pos (Or.inr hzero)]

/-- Witness for C7 at `quotesC7`. -/
theorem unpopulated_slot_returns_none_witness :
    (quotesC7 = [] ∨ (∀ q ∈ quotesC7, q.odds1 ≤ 0) ∨ (∀ q ∈ quotesC7, q.odds2 ≤ 0)) ∧
    calculate2WayArbitrage quotesC7 = none := by
  have h : quotesC7 = [] ∨ (∀ q ∈ quotesC7, q.odds1 ≤ 0) ∨ (∀ q ∈ quotesC7, q.odds2 ≤ 0) :=
    Or.inr (Or.inl (by simp [quotesC7]))
  exact ⟨h, unpopulated_slot_returns_none quotesC7 h⟩

/-! ## Claim C2: profit and stake-split formulas -/

/-- Concrete input for C2 (from the spec): outcome1 at 2.10 @ BookA,
outcome2 at 1.95 @ BookB. -/
def quotesC2 : List OddsQuote :=
  [{ team1 := "Lakers", team2 := "Celtics", bookmaker := "BookA", odds1 := 21/10,
     odds2 := 19/10, draw_odds := none },
   { team1 := "Lakers", team2 := "Celtics", bookmaker := "BookB", odds1 := 2,
     odds2 := 39/20, draw_odds := none }]

/-- C2: a non-null result's `profit_percentage` is `(1/T - 1) * 100` rounded to
2 decimals for `T` the total implied probability, each leg's `stake_pct` is
`(slot implied probability / T) * 100` rounded to 2 decimals independently,
and the spec's 2.10 / 1.95 example yields profit 1.11 and stakes
48.15 / 51.85. -/
theorem profit_and_stake_pct_formulas (odds : List OddsQuote) :
    (∀ r, calculate2WayArbitrage odds = some r →
      r.profit_percentage = round2 ((1 / totalImpliedProb2 odds - 1) * 100) ∧
      r.bets.map BetLeg.stake_pct =
        [round2 (impliedProb1 odds / totalImpliedProb2 odds * 100),
         round2 (impliedProb2 odds / totalImpliedProb2 odds * 100)]) ∧
    (∀ r, calculate3WayArbitrage odds = some r →
      r.profit_percentage = round2 ((1 / totalImpliedProb3 odds - 1) * 100) ∧
      r.bets.map BetLeg.stake_pct =
        [round2 (impliedProb1 odds / totalImpliedProb3 odds * 100),
         round2 (impliedProbDraw odds / totalImpliedProb3 odds * 100),
         round2 (impliedProb2 odds / totalImpliedProb3 odds * 100)]) ∧
    (calculate2WayArbitrage quotesC2).map
        (fun r => (r.profit_percentage, r.bets.map BetLeg.stake_pct)) =
      some (111/100, [4815/100, 5185/100]) := by
  refine ⟨?_, ?_, ?_⟩
  · intro r hr
    obtain ⟨-, -, -, q0, t, -, hrEq⟩ := calc2_inv hr
    rw [hrEq]
    exact ⟨rfl, rfl⟩
  · intro r hr
    obtain ⟨-, -, -, -, q0, t, -, hrEq⟩ := calc3_inv hr
    rw [hrEq]
    exact ⟨rfl, rfl⟩
  · norm_num [calculate2WayArbitrage, bestOdds1, bestOdds2, quotesC2, stepSlot, odds1Slot,
      odds2Slot, impliedProb1, impliedProb2, totalImpliedProb2, round2, round_eq]

/-- The result of `calculate2WayArbitrage` on `quotesC2`. -/
def resultC2 : ArbitrageResult :=
  { exists_flag := true, profit_percentage := 111/100,
    bets := [
      { outcome := "Lakers", bookmaker := some "BookA", odds := 21/10, stake_pct := 963/20 },
      { outcome := "Celtics", bookmaker := some "BookB", odds := 39/20, stake_pct := 1037/20 }] }

/-- Witness for C2 at `quotesC2`. -/
theorem profit_and_stake_pct_formulas_witness :
    calculate2WayArbitrage quotesC2 = some resultC2 ∧
    (resultC2.profit_percentage = round2 ((1 / totalImpliedProb2 quotesC2 - 1) * 100) ∧
     resultC2.bets.map BetLeg.stake_pct =
       [round2 (impliedProb1 quotesC2 / totalImpliedProb2 quotesC2 * 100),
        round2 (impliedProb2 quotesC2 / totalImpliedProb2 quotesC2 * 100)]) := by
  have h : calculate2WayArbitrage quotesC2 = some resultC2 := by
    norm_num [calculate2WayArbitrage, bestOdds1, bestOdds2, quotesC2, stepSlot, odds1Slot,
      odds2Slot, impliedProb1, impliedProb2, totalImpliedProb2, round2, round_eq, resultC2]
  exact ⟨h, (profit_and_stake_pct_formulas quotesC2).1 resultC2 h⟩

/-! ## Claim C3: best price and first-encountered bookmaker per leg -/

/-- Concrete input for C3: a 3-way market with two bookmakers; the best
outcome-2 price 4 is a tie resolved in favour of the first quote. -/
def quotesC3 : List OddsQuote :=
  [{ team1 := "H", team2 := "A", bookmaker := "B1", odds1 := 3, odds2 := 4,
     draw_odds := some 5 },
   { team1 := "H", team2 := "A", bookmaker := "B2", odds1 := 7/2, odds2 := 4,
     draw_odds := some (9/2) }]

/-- C3: each leg of a non-null result carries the maximum odds offered for its
slot across all quotes, and the bookmaker of the first quote in list order
attaining that maximum. -/
theorem best_price_first_bookmaker (odds : List OddsQuote) :
    (∀ r, calculate2WayArbitrage odds = some r →
      r.bets.map (fun b => (b.odds, b.bookmaker)) =
        [(slotMax odds1Slot odds, slotFirstBookmaker odds1Slot odds),
         (slotMax odds2Slot odds, slotFirstBookmaker odds2Slot odds)]) ∧
    (∀ r, calculate3WayArbitrage odds = some r →
      r.bets.map (fun b => (b.odds, b.bookmaker)) =
        [(slotMax odds1Slot odds, slotFirstBookmaker odds1Slot odds),
         (slotMax drawSlot odds, slotFirstBookmaker drawSlot odds),
         (slotMax odds2Slot odds, slotFirstBookmaker odds2Slot odds)]) := by
  constructor
  · intro r hr
    obtain ⟨h1, h2, -, q0, t, -, hrEq⟩ := calc2_inv hr
    have e1 : r.bets.map (fun b => (b.odds, b.bookmaker)) =
        [((bestOdds1 odds).odds, (bestOdds1 odds).bookmaker),
         ((bestOdds2 odds).odds, (bestOdds2 odds).bookmaker)] := by
      rw [hrEq]
      rfl
    rw [e1, bestOdds1_odds_eq, bestOdds2_odds_eq,
      bestOdds1_bookmaker_eq odds h1, bestOdds2_bookmaker_eq odds h2]
  · intro r hr
    obtain ⟨h1, h2, h3, -, q0, t, -, hrEq⟩ := calc3_inv hr
    have e1 : r.bets.map (fun b => (b.odds, b.bookmaker)) =
        [((bestOdds1 odds).odds, (bestOdds1 odds).bookmaker),
         ((bestDraw odds).odds, (bestDraw odds).bookmaker),
         ((bestOdds2 odds).odds, (bestOdds2 odds).bookmaker)] := by
      rw [hrEq]
      rfl
    rw [e1, bestOdds1_odds_eq, bestOdds2_odds_eq, bestDraw_odds_eq,
      bestOdds1_bookmaker_eq odds h1, bestOdds2_bookmaker_eq odds h2,
      bestDraw_bookmaker_eq odds h3]

/-- The result of `calculate3WayArbitrage` on `quotesC3`. -/
def resultC3 : ArbitrageResult :=
  { exists_flag := true, profit_percentage := 898/25,
    bets := [
      { outcome := "H", bookmaker := some "B2", odds := 7/2, stake_pct := 3883/100 },
      { outcome := "Draw", bookmaker := some "B1", odds := 5, stake_pct := 1359/50 },
      { outcome := "A", bookmaker := some "B1", odds := 4, stake_pct := 1699/50 }] }

/-- Witness for C3 at `quotesC3` (3-way case, including the first-wins tie on
outcome 2). -/
theorem best_price_first_bookmaker_witness :
    calculate3WayArbitrage quotesC3 = some resultC3 ∧
    resultC3.bets.map (fun b => (b.odds, b.bookmaker)) =
      [(slotMax odds1Slot quotesC3, slotFirstBookmaker odds1Slot quotesC3),
       (slotMax drawSlot quotesC3, slotFirstBookmaker drawSlot quotesC3),
       (slotMax odds2Slot quotesC3, slotFirstBookmaker odds2Slot quotesC3)] := by
  have h : calculate3WayArbitrage quotesC3 = some resultC3 := by
    norm_num [calculate3WayArbitrage, bestOdds1, bestOdds2, bestDraw, quotesC3, stepSlot,
      odds1Slot, odds2Slot, drawSlot, impliedProb1, impliedProb2, impliedProbDraw,
      totalImpliedProb3, round2, round_eq, resultC3]
  exact ⟨h, (best_price_first_bookmaker quotesC3).2 resultC3 h⟩

/-! ## Claim C10: results always carry `exists = true` -/

theorem evalMatch_of_none {stake minProfit : ℚ} {m : Match}
    (h : matchArbitrage m = none) : evalMatch stake minProfit m = none := by
  unfold evalMatch
  rw [h]

theorem evalMatch_of_some {stake minProfit : ℚ} {m : Match} {arb : ArbitrageResult}
    (h : matchArbitrage m = some arb) :
    evalMatch stake minProfit m =
      if arb.exists_flag ∧ minProfit ≤ arb.profit_percentage then
        some (buildOpportunity m arb stake)
      else none := by
  unfold evalMatch
  rw [h]

theorem matchArbitrage_exists_flag {m : Match} {r : ArbitrageResult}
    (h : matchArbitrage m = some r) : r.exists_flag = true := by
  unfold matchArbitrage at h
  by_cases hd : m.has_draw
  · rw [if_pos hd] at h
    exact calc3_exists_flag h
  · rw [if_neg hd] at h
    exact calc2_exists_flag h

theorem matchArbitrage_profit_nonneg {m : Match} {r : ArbitrageResult}
    (h : matchArbitrage m = some r) : 0 ≤ r.profit_percentage := by
  unfold matchArbitrage at h
  by_cases hd : m.has_draw
  · rw [if_pos hd] at h
    exact calc3_profit_nonneg h
  · rw [if_neg hd] at h
    exact calc2_profit_nonneg h

/-- The loop body of `findArbitrageOpportunities` with the redundant
`arbitrage.exists` conjunct removed (for comparison with `evalMatch`). -/
def evalMatchNoExistsCheck (stake minProfit : ℚ) (m : Match) : Option Opportunity :=
  match matchArbitrage m with
  | none => none
  | some arb =>
    if minProfit ≤ arb.profit_percentage then some (buildOpportunity m arb stake)
    else none

/-- `findArbitrageOpportunities` with the `arbitrage.exists` conjunct removed. -/
def findArbitrageOpportunitiesNoExistsCheck (matchList : List Match) (minProfit stake : ℚ) :
    List Opportunity :=
  (matchList.filterMap (evalMatchNoExistsCheck stake minProfit)).insertionSort profitGe

/-- C10: the calculators return null or a record with `exists = true`, so the
`arbitrage.exists` conjunct in the filter of `findArbitrageOpportunities`
never eliminates a non-null result. -/
theorem results_never_exists_false :
    (∀ odds : List OddsQuote,
      (calculate2WayArbitrage odds).all ArbitrageResult.exists_flag = true ∧
      (calculate3WayArbitrage odds).all ArbitrageResult.exists_flag = true) ∧
    (∀ (matchList : List Match) (minProfit stake : ℚ),
      findArbitrageOpportunities matchList minProfit stake =
        findArbitrageOpportunitiesNoExistsCheck matchList minProfit stake) := by
  constructor
  · intro odds
    constructor
    · cases h : calculate2WayArbitrage odds with
      | none => rfl
      | some r => exact calc2_exists_flag h
    · cases h : calculate3WayArbitrage odds with
      | none => rfl
      | some r => exact calc3_exists_flag h
  · intro matchList minProfit stake
    unfold findArbitrageOpportunities findArbitrageOpportunitiesNoExistsCheck
    congr 1
    apply List.filterMap_congr
    intro m _
    cases harb : matchArbitrage m with
    | none =>
      rw [evalMatch_of_none harb]
      unfold evalMatchNoExistsCheck
      rw [harb]
    | some arb =>
      rw [evalMatch_of_some harb]
      unfold evalMatchNoExistsCheck
      rw [harb]
      simp [matchArbitrage_exists_flag harb]

/-! ## Claim C4: stake-amount, potential-return and guaranteed-profit formulas

The code computes `potential_return` from the unrounded
`totalStake * stake_pct / 100`, not from the rounded `stake_amount`; the two
differ, e.g. at total stake 3 on best odds 2.10 / 1.95. -/

/-- Concrete input for C4. -/
def quotesC4 : List OddsQuote :=
  [{ team1 := "A", team2 := "B", bookmaker := "X", odds1 := 21/10, odds2 := 39/20,
     draw_odds := none }]

/-- Concrete match for C4. -/
def matchC4 : Match :=
  { match_name := "A vs B", sport := "basketball", league := "NBA", start_time := "t0",
    odds := quotesC4, has_draw := false }

/-- Counterexample to C4: at total stake 3 the first leg has
`stake_amount = 1.44`, `potential_return = 3.03`, but
`round(stake_amount × odds, 2) = round(1.44 × 2.1, 2) = 3.02 ≠ 3.03` (the second
leg differs too: 3.03 vs 3.04). -/
theorem potential_return_not_from_rounded_stake :
    ((findArbitrageOpportunities [matchC4] 0 3).map fun o =>
        o.bets.map fun b => (b.stake_amount, b.potential_return, round2 (b.stake_amount * b.odds)))
      = [[(36/25, 303/100, 151/50), (39/25, 303/100, 76/25)]] ∧
    (303/100 : ℚ) ≠ 151/50 := by
  constructor
  · norm_num [findArbitrageOpportunities, evalMatch, matchArbitrage, buildOpportunity,
      matchC4, calculate2WayArbitrage, bestOdds1, bestOdds2, quotesC4, stepSlot, odds1Slot,
      odds2Slot, impliedProb1, impliedProb2, totalImpliedProb2, calculateStakeAmounts,
      round2, round_eq, List.filterMap_cons, List.insertionSort, List.orderedInsert]
  · norm_num

/-- C4 as amended: in every assembled opportunity,
`stake_amount = round(S × stake_pct / 100, 2)` and the guaranteed profit is
`round(S × profit_percentage / 100, 2)`, but each leg's `potential_return` is
`round(S × stake_pct / 100 × odds, 2)` — rounding applied to the unrounded
stake times the odds, not to the rounded `stake_amount`. -/
theorem stake_amount_formulas (matchList : List Match) (minProfit stake : ℚ) :
    ∀ opp ∈ findArbitrageOpportunities matchList minProfit stake,
      opp.total_stake = stake ∧
      opp.guaranteed_profit = round2 (stake * opp.profit_percentage / 100) ∧
      ∀ b ∈ opp.bets,
        b.stake_amount = round2 (stake * b.stake_pct / 100) ∧
        b.potential_return = round2 (stake * b.stake_pct / 100 * b.odds) := by
  intro opp hopp
  rw [findArbitrageOpportunities, List.mem_insertionSort, List.mem_filterMap] at hopp
  obtain ⟨m, hm, hev⟩ := hopp
  cases harb : matchArbitrage m with
  | none =>
    rw [evalMatch_of_none harb] at hev
    exact absurd hev (by simp)
  | some arb =>
    rw [evalMatch_of_some harb] at hev
    by_cases hc : arb.exists_flag ∧ minProfit ≤ arb.profit_percentage
    · rw [if_pos hc] at hev
      have hoppEq : buildOpportunity m arb stake = opp := Option.some.inj hev
      rw [← hoppEq]
      refine ⟨rfl, rfl, ?_⟩
      intro b hb
      have hb' : b ∈ calculateStakeAmounts arb stake := hb
      rw [calculateStakeAmounts, List.mem_map] at hb'
      obtain ⟨bet, -, hbEq⟩ := hb'
      rw [← hbEq]
      exact ⟨rfl, rfl⟩
    · rw [if_neg hc] at hev
      exact absurd hev (by simp)

/-- First leg of the C4 opportunity at stake 3. -/
def betC4a : BetWithStake :=
  { outcome := "A", bookmaker := some "X", odds := 21/10, stake_pct := 963/20,
    stake_amount := 36/25, potential_return := 303/100 }

/-- Second leg of the C4 opportunity at stake 3. -/
def betC4b : BetWithStake :=
  { outcome := "B", bookmaker := some "X", odds := 39/20, stake_pct := 1037/20,
    stake_amount := 39/25, potential_return := 303/100 }

/-- The single opportunity found on `[matchC4]` at stake 3. -/
def opportunityC4 : Opportunity :=
  { match_name := "A vs B", sport := "basketball", league := "NBA", start_time := "t0",
    profit_percentage := 111/100, total_stake := 3, guaranteed_profit := 3/100,
    bets := [betC4a, betC4b] }

/-- Witness for the amended C4 at `matchC4`, stake 3. -/
theorem stake_amount_formulas_witness :
    opportunityC4 ∈ findArbitrageOpportunities [matchC4] 0 3 ∧
    betC4a ∈ opportunityC4.bets ∧
    betC4a.stake_amount = round2 (3 * betC4a.stake_pct / 100) ∧
    betC4a.potential_return = round2 (3 * betC4a.stake_pct / 100 * betC4a.odds) := by
  have hfind : findArbitrageOpportunities [matchC4] 0 3 = [opportunityC4] := by
    norm_num [findArbitrageOpportunities, evalMatch, matchArbitrage, buildOpportunity,
      matchC4, calculate2WayArbitrage, bestOdds1, bestOdds2, quotesC4, stepSlot, odds1Slot,
      odds2Slot, impliedProb1, impliedProb2, totalImpliedProb2, calculateStakeAmounts,
      round2, round_eq, List.filterMap_cons, List.insertionSort, List.orderedInsert,
      opportunityC4, betC4a, betC4b]
  have h1 : opportunityC4 ∈ findArbitrageOpportunities [matchC4] 0 3 := by
    rw [hfind]
    exact List.mem_cons_self _ _
  have h2 : betC4a ∈ opportunityC4.bets := List.mem_cons_self _ _
  have h3 := (stake_amount_formulas [matchC4] 0 3 opportunityC4 h1).2.2 betC4a h2
  exact ⟨h1, h2, h3.1, h3.2⟩

/-! ## Claim C5: payout equalization

The fixed tolerances ±0.02 / ±0.03 do not hold for all stakes and odds: the
rounding error of `stake_pct` (±0.005) is scaled by `S/100` and by the leg's
odds, so the payout spread grows with both.  The counterexample below already
violates ±0.02 at the default stake 100.  The amended bound proves each leg's
payout lies within `odds × (S/20000 + 1/200)` of the ideal common payout
`S / totalImpliedProb`. -/

/-- Concrete input for C5: best odds 3 and 200 (sum of implied probabilities
203/600 < 1). -/
def quotesC5 : List OddsQuote :=
  [{ team1 := "A", team2 := "B", bookmaker := "X", odds1 := 3, odds2 := 200,
     draw_odds := none }]

/-- Concrete match for C5. -/
def matchC5 : Match :=
  { match_name := "A vs B", sport := "tennis", league := "ATP", start_time := "t0",
    odds := quotesC5, has_draw := false }

/-- Counterexample to C5: at total stake 100 the detected opportunity's leg
payouts are 295.56 and 296.00, which differ by 0.44 > 0.02. -/
theorem payout_not_within_fixed_tolerance :
    ((findArbitrageOpportunities [matchC5] 0 100).map fun o =>
        o.bets.map fun b => b.stake_amount * b.odds) = [[7389/25, 296]] ∧
    ¬ |(7389/25 : ℚ) - 296| ≤ 2/100 := by
  constructor
  · norm_num [findArbitrageOpportunities, evalMatch, matchArbitrage, buildOpportunity,
      matchC5, calculate2WayArbitrage, bestOdds1, bestOdds2, quotesC5, stepSlot, odds1Slot,
      odds2Slot, impliedProb1, impliedProb2, totalImpliedProb2, calculateStakeAmounts,
      round2, round_eq, List.filterMap_cons, List.insertionSort, List.orderedInsert]
  · rw [show (7389/25 : ℚ) - 296 = -(11/25) from by norm_num, abs_neg,
      abs_of_nonneg (show (0:ℚ) ≤ 11/25 from by norm_num)]
    norm_num

theorem leg_payout_bound (p o T S : ℚ) (hpo : p * o = 1) (ho : 0 < o) (hS : 0 ≤ S) :
    |round2 (S * round2 (p / T * 100) / 100) * o - S / T| ≤ o * (S / 20000 + 1 / 200) := by
  have h1 : |round2 (p / T * 100) - p / T * 100| ≤ 1/200 := round2_err _
  have h2 : |round2 (S * round2 (p / T * 100) / 100) - S * round2 (p / T * 100) / 100| ≤
      1/200 := round2_err _
  set pct := round2 (p / T * 100) with hpct
  set st := round2 (S * pct / 100) with hst
  have h3 : |st - S * (p / T)| ≤ S / 20000 + 1 / 200 := by
    have e : st - S * (p / T) = (st - S * pct / 100) + (S / 100) * (pct - p / T * 100) := by
      ring
    rw [e]
    have h4 : |(S / 100) * (pct - p / T * 100)| ≤ (S / 100) * (1/200) := by
      rw [abs_mul, abs_of_nonneg (show (0:ℚ) ≤ S / 100 by positivity)]
      exact mul_le_mul_of_nonneg_left h1 (by positivity)
    calc |(st - S * pct / 100) + (S / 100) * (pct - p / T * 100)|
        ≤ |st - S * pct / 100| + |(S / 100) * (pct - p / T * 100)| := abs_add _ _
      _ ≤ 1/200 + (S / 100) * (1/200) := add_le_add h2 h4
      _ = S / 20000 + 1/200 := by ring
  have e2 : st * o - S / T = o * (st - S * (p / T)) := by
    have hST : S / T = o * (S * (p / T)) := by
      have e3 : o * (S * (p / T)) = S * (p * o) / T := by ring
      rw [e3, hpo, mul_one]
    rw [hST]
    ring
  rw [e2, abs_mul, abs_of_pos ho]
  exact mul_le_mul_of_nonneg_left h3 ho.le

/-- C5 as amended: for every non-null result and every nonnegative total stake
`S`, each leg's payout `stake_amount × odds` lies within
`odds × (S/20000 + 1/200)` of the ideal common payout
`S / totalImpliedProb`; payouts are equal only up to a tolerance that scales
with the stake and the leg's odds, not the fixed ±0.02 / ±0.03. -/
theorem payout_equalization_within_scaled_tolerance (odds : List OddsQuote) (S : ℚ)
    (hS : 0 ≤ S) :
    (∀ r, calculate2WayArbitrage odds = some r →
      ∀ b ∈ calculateStakeAmounts r S,
        |b.stake_amount * b.odds - S / totalImpliedProb2 odds| ≤
          b.odds * (S / 20000 + 1 / 200)) ∧
    (∀ r, calculate3WayArbitrage odds = some r →
      ∀ b ∈ calculateStakeAmounts r S,
        |b.stake_amount * b.odds - S / totalImpliedProb3 odds| ≤
          b.odds * (S / 20000 + 1 / 200)) := by
  constructor
  · intro r hr b hb
    obtain ⟨h1, h2, -, q0, t, -, hrEq⟩ := calc2_inv hr
    rw [hrEq, calculateStakeAmounts, List.mem_map] at hb
    obtain ⟨bet, hbet, hbEq⟩ := hb
    simp only [List.mem_cons, List.not_mem_nil, or_false] at hbet
    rcases hbet with hbet | hbet
    · rw [← hbEq, hbet]
      exact leg_payout_bound (impliedProb1 odds) ((bestOdds1 odds).odds)
        (totalImpliedProb2 odds) S
        (one_div_mul_cancel h1) (bestOdds1_pos odds h1) hS
    · rw [← hbEq, hbet]
      exact leg_payout_bound (impliedProb2 odds) ((bestOdds2 odds).odds)
        (totalImpliedProb2 odds) S
        (one_div_mul_cancel h2) (bestOdds2_pos odds h2) hS
  · intro r hr b hb
    obtain ⟨h1, h2, h3, -, q0, t, -, hrEq⟩ := calc3_inv hr
    rw [hrEq, calculateStakeAmounts, List.mem_map] at hb
    obtain ⟨bet, hbet, hbEq⟩ := hb
    simp only [List.mem_cons, List.not_mem_nil, or_false] at hbet
    rcases hbet with hbet | hbet | hbet
    · rw [← hbEq, hbet]
      exact leg_payout_bound (impliedProb1 odds) ((bestOdds1 odds).odds)
        (totalImpliedProb3 odds) S
        (one_div_mul_cancel h1) (bestOdds1_pos odds h1) hS
    · rw [← hbEq, hbet]
      exact leg_payout_bound (impliedProbDraw odds) ((bestDraw odds).odds)
        (totalImpliedProb3 odds) S
        (one_div_mul_cancel h3) (bestDraw_pos odds h3) hS
    · rw [← hbEq, hbet]
      exact leg_payout_bound (impliedProb2 odds) ((bestOdds2 odds).odds)
        (totalImpliedProb3 odds) S
        (one_div_mul_cancel h2) (bestOdds2_pos odds h2) hS

/-- The result of `calculate2WayArbitrage` on `quotesC5`. -/
def resultC5 : ArbitrageResult :=
  { exists_flag := true, profit_percentage := 19557/100,
    bets := [
      { outcome := "A", bookmaker := some "X", odds := 3, stake_pct := 2463/25 },
      { outcome := "B", bookmaker := some "X", odds := 200, stake_pct := 37/25 }] }

/-- First leg of the C5 opportunity at stake 100. -/
def betC5a : BetWithStake :=
  { outcome := "A", bookmaker := some "X", odds := 3, stake_pct := 2463/25,
    stake_amount := 2463/25, potential_return := 7389/25 }

/-- Second leg of the C5 opportunity at stake 100. -/
def betC5b : BetWithStake :=
  { outcome := "B", bookmaker := some "X", odds := 200, stake_pct := 37/25,
    stake_amount := 37/25, potential_return := 296 }

/-- Witness for the amended C5 at `quotesC5`, stake 100. -/
theorem payout_equalization_within_scaled_tolerance_witness :
    (0:ℚ) ≤ 100 ∧ calculate2WayArbitrage quotesC5 = some resultC5 ∧
    betC5a ∈ calculateStakeAmounts resultC5 100 ∧
    |betC5a.stake_amount * betC5a.odds - 100 / totalImpliedProb2 quotesC5| ≤
      betC5a.odds * (100 / 20000 + 1 / 200) := by
  have h0 : (0:ℚ) ≤ 100 := by norm_num
  have h1 : calculate2WayArbitrage quotesC5 = some resultC5 := by
    norm_num [calculate2WayArbitrage, bestOdds1, bestOdds2, quotesC5, stepSlot, odds1Slot,
      odds2Slot, impliedProb1, impliedProb2, totalImpliedProb2, round2, round_eq, resultC5]
  have hlist : calculateStakeAmounts resultC5 100 = [betC5a, betC5b] := by
    norm_num [calculateStakeAmounts, resultC5, betC5a, betC5b, round2, round_eq]
  have h2 : betC5a ∈ calculateStakeAmounts resultC5 100 := by
    rw [hlist]
    exact List.mem_cons_self _ _
  exact ⟨h0, h1, h2,
    (payout_equalization_within_scaled_tolerance quotesC5 100 h0).1 resultC5 h1 betC5a h2⟩

/-! ## Claim C8: the min-profit filter gives a sorted sublist -/

theorem evalMatch_eq_bind_filter (stake minProfit : ℚ) (m : Match) :
    evalMatch stake minProfit m =
      (evalMatch stake 0 m).bind fun o =>
        if minProfit ≤ o.profit_percentage then some o else none := by
  cases harb : matchArbitrage m with
  | none => simp [evalMatch_of_none harb]
  | some arb =>
    have hex := matchArbitrage_exists_flag harb
    have hnn := matchArbitrage_profit_nonneg harb
    rw [evalMatch_of_some harb, evalMatch_of_some harb]
    simp only [hex, true_and, if_pos hnn, Option.some_bind]
    rfl

theorem filterMap_evalMatch_eq_filter (matchList : List Match) (stake minProfit : ℚ) :
    matchList.filterMap (evalMatch stake minProfit) =
      (matchList.filterMap (evalMatch stake 0)).filter fun o =>
        decide (minProfit ≤ o.profit_percentage) := by
  induction matchList with
  | nil => rfl
  | cons m t ih =>
    rw [List.filterMap_cons, List.filterMap_cons, evalMatch_eq_bind_filter stake minProfit m]
    cases h0 : evalMatch stake 0 m with
    | none => simpa using ih
    | some o =>
      by_cases hX : minProfit ≤ o.profit_percentage
      · simp [hX, List.filter_cons, ih]
      · simp [hX, List.filter_cons, ih]

theorem insertionSort_filter_sublist (p : Opportunity → Bool) (l : List Opportunity) :
    List.Sublist ((l.filter p).insertionSort profitGe) (l.insertionSort profitGe) := by
  induction l with
  | nil => exact List.Sublist.refl _
  | cons a t ih =>
    rw [List.filter_cons]
    by_cases hp : p a
    · rw [if_pos hp]
      exact List.Sublist.orderedInsert_sublist a ih (List.sorted_insertionSort profitGe t)
    · rw [if_neg hp]
      exact ih.trans (List.sublist_orderedInsert a _)

/-- C8: the opportunity list at threshold `minProfit` is a sublist of the list
at threshold 0, and both lists are sorted by `profit_percentage` in descending
order. -/
theorem minProfit_filter_sublist_and_sorted (matchList : List Match) (minProfit stake : ℚ) :
    List.Sublist (findArbitrageOpportunities matchList minProfit stake)
      (findArbitrageOpportunities matchList 0 stake) ∧
    (findArbitrageOpportunities matchList minProfit stake).Sorted profitGe ∧
    (findArbitrageOpportunities matchList 0 stake).Sorted profitGe := by
  refine ⟨?_, List.sorted_insertionSort profitGe _, List.sorted_insertionSort profitGe _⟩
  unfold findArbitrageOpportunities
  rw [filterMap_evalMatch_eq_filter matchList stake minProfit]
  exact insertionSort_filter_sublist _ _

/-! ## Claim C9: stake scaling -/

/-- Descending order on rational profit values. -/
def qGe (x y : ℚ) : Prop := y ≤ x

instance : DecidableRel qGe := fun x y => inferInstanceAs (Decidable (y ≤ x))

theorem evalMatch_profit_map (S S' minProfit : ℚ) (m : Match) :
    (evalMatch S minProfit m).map Opportunity.profit_percentage =
      (evalMatch S' minProfit m).map Opportunity.profit_percentage := by
  cases harb : matchArbitrage m with
  | none => rw [evalMatch_of_none harb, evalMatch_of_none harb]
  | some arb =>
    rw [evalMatch_of_some harb, evalMatch_of_some harb]
    split_ifs with h
    · rfl
    · rfl

theorem stake_amount_double_bound (bet : BetLeg) (S : ℚ) :
    |round2 (2 * S * bet.stake_pct / 100) - 2 * round2 (S * bet.stake_pct / 100)| ≤ 3 / 200 := by
  have e : 2 * S * bet.stake_pct / 100 = 2 * (S * bet.stake_pct / 100) := by ring
  rw [e]
  exact round2_two_mul _

/-- C9: recomputing the stake amounts at total stake `2S` leaves every leg's
`stake_pct` unchanged, doubles every leg's `stake_amount` up to 3/200
(0.015, three half-cent roundings), doubles the guaranteed-profit amount
`round(stake × profit_percentage / 100, 2)` up to the same 3/200, and leaves
every opportunity's `profit_percentage` unchanged. -/
theorem stake_scaling (arb : ArbitrageResult) (S : ℚ) :
    (calculateStakeAmounts arb (2 * S)).map BetWithStake.stake_pct =
      (calculateStakeAmounts arb S).map BetWithStake.stake_pct ∧
    (∀ pr ∈ (calculateStakeAmounts arb (2 * S)).zip (calculateStakeAmounts arb S),
      |pr.1.stake_amount - 2 * pr.2.stake_amount| ≤ 3 / 200) ∧
    |round2 (2 * S * arb.profit_percentage / 100) -
        2 * round2 (S * arb.profit_percentage / 100)| ≤ 3 / 200 ∧
    (∀ (matchList : List Match) (minProfit : ℚ),
      (findArbitrageOpportunities matchList minProfit (2 * S)).map
          Opportunity.profit_percentage =
        (findArbitrageOpportunities matchList minProfit S).map
          Opportunity.profit_percentage) := by
  refine ⟨?_, ?_, ?_, ?_⟩
  · simp [calculateStakeAmounts]
  · intro pr hpr
    rw [calculateStakeAmounts, calculateStakeAmounts, List.zip_map', List.mem_map] at hpr
    obtain ⟨bet, -, hprEq⟩ := hpr
    rw [← hprEq]
    exact stake_amount_double_bound bet S
  · have e : 2 * S * arb.profit_percentage / 100 =
        2 * (S * arb.profit_percentage / 100) := by ring
    rw [e]
    exact round2_two_mul _
  · intro matchList minProfit
    unfold findArbitrageOpportunities
    rw [List.map_insertionSort profitGe qGe Opportunity.profit_percentage _
        (fun a _ b _ => Iff.rfl),
      List.map_insertionSort profitGe qGe Opportunity.profit_percentage _
        (fun a _ b _ => Iff.rfl)]
    congr 1
    rw [List.map_filterMap, List.map_filterMap]
    apply List.filterMap_congr
    intro m _
    exact evalMatch_profit_map (2 * S) S minProfit m

/-- The single bet of the C9 example result. -/
def arbC9 : ArbitrageResult :=
  { exists_flag := true, profit_percentage := 111/100,
    bets := [{ outcome := "A", bookmaker := some "X", odds := 21/10, stake_pct := 963/20 }] }

/-- The C9 bet with stakes at total stake 6. -/
def betC9double : BetWithStake :=
  { outcome := "A", bookmaker := some "X", odds := 21/10, stake_pct := 963/20,
    stake_amount := 289/100, potential_return := 607/100 }

/-- The C9 bet with stakes at total stake 3. -/
def betC9single : BetWithStake :=
  { outcome := "A", bookmaker := some "X", odds := 21/10, stake_pct := 963/20,
    stake_amount := 36/25, potential_return := 303/100 }

/-- Witness for C9 at `arbC9`, stakes 3 and 6 (the doubled stake 2.89 differs
from 2 × 1.44 by exactly 0.01 ≤ 3/200). -/
theorem stake_scaling_witness :
    (betC9double, betC9single) ∈
      (calculateStakeAmounts arbC9 (2 * 3)).zip (calculateStakeAmounts arbC9 3) ∧
    |betC9double.stake_amount - 2 * betC9single.stake_amount| ≤ 3 / 200 := by
  have hzip : (calculateStakeAmounts arbC9 (2 * 3)).zip (calculateStakeAmounts arbC9 3) =
      [(betC9double, betC9single)] := by
    norm_num [calculateStakeAmounts, arbC9, betC9double, betC9single, round2, round_eq]
  have hmem : (betC9double, betC9single) ∈
      (calculateStakeAmounts arbC9 (2 * 3)).zip (calculateStakeAmounts arbC9 3) := by
    rw [hzip]
    exact List.mem_cons_self _ _
  exact ⟨hmem, (stake_scaling arbC9 3).2.1 (betC9double, betC9single) hmem⟩
